import Mathlib

/-!
Verification of the order-video store and QR-link resolver of the
qr-experience backend. The definitions below are a shallow embedding of
`src/api/index.js` (the primary variant; near-identical variants live in
`src/web/index.js` and `src/unnamed/part_000` / `part_002`): machine strings
become lists of characters, the SQLite `orders` table becomes an association
list, JS numbers produced by `parseFloat` become `Option ℚ` with `none`
standing for NaN, and each Express handler becomes a pure function from its
inputs and the store to a response (and, for writes, an updated store).
-/

/-- Machine strings are modelled as lists of characters. -/
abbrev Str := List Char

/-- Embed a Lean string literal into the model type. -/
def str (s : String) : Str := s.data

namespace QrApp

/-- The `orders` table: `id TEXT PRIMARY KEY, video_url TEXT NOT NULL`,
kept as an association list in insertion order. -/
abbrev Store := List (Str × Str)

/-- The `id` column of every row. -/
def keys (s : Store) : List Str := s.map Prod.fst

/-- `INSERT INTO orders (id, video_url) VALUES (?, ?)
     ON CONFLICT(id) DO UPDATE SET video_url=excluded.video_url;`
On a key conflict the existing row's `video_url` is overwritten in place;
otherwise a fresh row is appended. -/
def upsert (s : Store) (id url : Str) : Store :=
  if s.any (fun r => r.1 == id) then
    s.map (fun r => if r.1 == id then (r.1, url) else r)
  else
    s ++ [(id, url)]

/-- `SELECT video_url FROM orders WHERE id = ?` — first matching row, if any. -/
def get : Store → Str → Option Str
  | [], _ => none
  | r :: rest, id => if r.1 == id then some r.2 else get rest id

/-- Responses of `POST /api/orders/:orderId/video`. -/
inductive SaveResp where
  | badRequest
  | success
  deriving DecidableEq

/-- `POST /api/orders/:orderId/video`: rejects a falsy `videoUrl`
(missing field and empty string alike) with 400, otherwise upserts.
The `orderId` path parameter is not validated by the handler. -/
def saveVideoHandler (s : Store) (orderId videoUrl : Str) : SaveResp × Store :=
  if videoUrl == [] then (SaveResp.badRequest, s)
  else (SaveResp.success, upsert s orderId videoUrl)

/-- Responses of `GET /api/orders/:orderId`. -/
inductive GetResp where
  | notFound
  | ok (url : Str)
  deriving DecidableEq

/-- `GET /api/orders/:orderId`: 404 when no row exists, else the stored URL. -/
def getOrderHandler (s : Store) (orderId : Str) : GetResp :=
  match get s orderId with
  | none => GetResp.notFound
  | some u => GetResp.ok u

/-- The enrichment step of `GET /api/orders`: for each platform order id,
`{...o, video_url: row?.video_url || ''}` — a missing row, like a falsy
stored value, yields the empty string. -/
def listEnriched (s : Store) (ids : List Str) : List (Str × Str) :=
  ids.map (fun id =>
    (id, match get s id with
         | some u => if u == [] then [] else u
         | none => []))

/-- `.replace(/\D/g, '')` — keep only decimal digits. -/
def stripNonDigits (p : Str) : Str := p.filter Char.isDigit

/-- `.slice(-n)` on a string: the last `n` characters, or the whole string
when it is shorter than `n`. -/
def sliceLast (n : Nat) (p : Str) : Str := p.drop (p.length - n)

/-- `(order.customer?.phone || '').replace(/\D/g, '').slice(-10)` followed by
the `phone || 'unknown'` fallback used when the scan link is assembled:
`none` models an absent `customer.phone`. -/
def phoneTag (phone : Option Str) : Str :=
  let p := sliceLast 10 (stripNonDigits (phone.getD []))
  if p == [] then str "unknown" else p

/-- The scan link `${HOST}/qr/${orderId}-${phone || 'unknown'}`. -/
def buildScanLink (host orderId : Str) (phone : Option Str) : Str :=
  host ++ str "/qr/" ++ orderId ++ str "-" ++ phoneTag phone

/-- Numeric value of a run of decimal digits. -/
def digitsVal (ds : Str) : Nat := ds.foldl (fun acc d => acc * 10 + (d.toNat - 48)) 0

/-- The character-level half of JS `parseFloat`: skip leading whitespace,
read an optional sign, then decimal digits with an optional fractional part;
trailing text is ignored. Returns the sign bit and the two digit runs, or
`none` when no digit is readable. -/
def parseFloatParts (s : Str) : Option (Bool × Str × Str) :=
  let t := s.dropWhile (fun c => c == ' ' || c == Char.ofNat 9 || c == Char.ofNat 10 || c == Char.ofNat 13)
  let neg := t.headD ' ' == '-'
  let t2 := if t.headD ' ' == '-' || t.headD ' ' == '+' then t.tail else t
  let ip := t2.takeWhile Char.isDigit
  let rest := t2.dropWhile Char.isDigit
  let fp := if rest.headD ' ' == '.' then rest.tail.takeWhile Char.isDigit else []
  if ip == [] && fp == [] then none else some (neg, ip, fp)

/-- Numeric value of the parsed pieces. -/
def ratOfParts (p : Bool × Str × Str) : ℚ :=
  (if p.1 then -1 else 1) *
    ((digitsVal p.2.1 : ℚ) + (digitsVal p.2.2 : ℚ) / (10 : ℚ) ^ p.2.2.length)

/-- JS `parseFloat`, modelled on sign / integer / decimal-point inputs.
`none` stands for NaN (no digit readable). The exponent form of numeric
literals is not modelled; no call site in the program produces one. -/
def parseFloat (s : Str) : Option ℚ := (parseFloatParts s).map ratOfParts

/-- `total < 50 ? 'small.mp4' : total < 200 ? 'medium.mp4' : 'large.mp4'`,
with `total : Option ℚ` the `parseFloat` result. Every comparison against
NaN is false in JS, so `none` falls through both guards to `'large.mp4'`. -/
def tierFile (total : Option ℚ) : Str :=
  match total with
  | some t =>
    if t < 50 then str "small.mp4"
    else if t < 200 then str "medium.mp4"
    else str "large.mp4"
  | none => str "large.mp4"

/-- The price-tier classifier on an actual (finite) number; each tier is
named by the static asset it selects. -/
def classifyVideo (t : ℚ) : Str := tierFile (some t)

/-- `POST /webhook/orders/create`: classify the price, upsert the derived
video URL, and build the scan link (the QR encoding of that link is an
external collaborator and is not modelled). Returns the updated store and
the link. -/
def webhookOrdersCreate (mediaBase host : Str) (s : Store)
    (orderId : Str) (phone : Option Str) (totalPrice : Str) : Store × Str :=
  let videoUrl := mediaBase ++ str "/" ++ tierFile (parseFloat totalPrice)
  (upsert s orderId videoUrl, buildScanLink host orderId phone)

/-- JS `String.prototype.split` with a one-character separator. -/
def splitChar (sep : Char) : Str → List Str
  | [] => [[]]
  | c :: rest =>
    if c == sep then [] :: splitChar sep rest
    else
      match splitChar sep rest with
      | [] => [[c]]
      | s :: ss => (c :: s) :: ss

/-- `const [orderId] = req.params.orderMobile.split('-')` — the text before
the first separator. -/
def resolveScan (seg : Str) : Str := (splitChar '-' seg).headD []

/-- Hexadecimal digit, upper case, as `encodeURIComponent` emits. -/
def hexDigit (n : Nat) : Char := if n < 10 then Char.ofNat (48 + n) else Char.ofNat (55 + n)

/-- UTF-8 byte sequence of a code point. -/
def utf8Bytes (n : Nat) : List Nat :=
  if n < 128 then [n]
  else if n < 2048 then [192 + n / 64, 128 + n % 64]
  else if n < 65536 then [224 + n / 4096, 128 + (n / 64) % 64, 128 + n % 64]
  else [240 + n / 262144, 128 + (n / 4096) % 64, 128 + (n / 64) % 64, 128 + n % 64]

/-- The characters `encodeURIComponent` leaves unescaped. -/
def isUnescapedURI (c : Char) : Bool :=
  c.isAlpha || c.isDigit || c == '-' || c == '_' || c == '.' || c == '!' ||
  c == '~' || c == '*' || c == Char.ofNat 39 || c == '(' || c == ')'

/-- JS `encodeURIComponent`: unescaped characters pass through, every other
character is percent-encoded byte by byte in UTF-8. -/
def encodeURIComponent (s : Str) : Str :=
  (s.map (fun c =>
    if isUnescapedURI c then [c]
    else ((utf8Bytes c.toNat).map
      (fun b => ['%', hexDigit (b / 16), hexDigit (b % 16)])).flatten)).flatten

/-- Responses of `GET /qr/:orderMobile`. -/
inductive QrResp where
  | notFound
  | redirect (target : Str)
  deriving DecidableEq

/-- `GET /qr/:orderMobile`: look up the text before the first `-`, answer 404
when no row exists, else 302 to the player page with the URL as the `video`
query parameter. -/
def qrRedirectHandler (host : Str) (s : Store) (orderMobile : Str) : QrResp :=
  match get s (resolveScan orderMobile) with
  | none => QrResp.notFound
  | some u =>
    QrResp.redirect (host ++ str "/video-player.html?video=" ++ encodeURIComponent u)

/-- A history of webhook / manual-save writes replayed onto the empty table. -/
def runUpserts (ops : List (Str × Str)) : Store :=
  ops.foldl (fun s op => upsert s op.1 op.2) []

/-- Rows matching an id (a primary-key table holds at most one). -/
def recordCount (s : Store) (id : Str) : Nat := s.countP (fun r => r.1 == id)

theorem get_append_of_none (s t : Store) (id : Str) (h : get s id = none) :
    get (s ++ t) id = get t id := by
  induction s with
  | nil => simp
  | cons r rest ih =>
    by_cases hr : r.1 = id
    · rw [get.eq_2, if_pos (by simp [hr])] at h
      exact absurd h (by simp)
    · rw [get.eq_2, if_neg (by simp [hr])] at h
      rw [List.cons_append, get.eq_2, if_neg (by simp [hr])]
      exact ih h

theorem get_append_of_some (s t : Store) (id v : Str) (h : get s id = some v) :
    get (s ++ t) id = some v := by
  induction s with
  | nil => rw [get.eq_1] at h; exact absurd h (by simp)
  | cons r rest ih =>
    by_cases hr : r.1 = id
    · rw [get.eq_2, if_pos (by simp [hr])] at h
      rw [List.cons_append, get.eq_2, if_pos (by simp [hr])]
      exact h
    · rw [get.eq_2, if_neg (by simp [hr])] at h
      rw [List.cons_append, get.eq_2, if_neg (by simp [hr])]
      exact ih h

theorem get_none_of_any_false (s : Store) (id : Str)
    (h : s.any (fun r => r.1 == id) = false) : get s id = none := by
  induction s with
  | nil => rfl
  | cons r rest ih =>
    simp only [List.any_cons, Bool.or_eq_false_iff] at h
    rw [get.eq_2, if_neg (by simp [h.1])]
    exact ih h.2

theorem get_map_replace_of_any (s : Store) (id u : Str)
    (h : s.any (fun r => r.1 == id) = true) :
    get (s.map (fun r => if r.1 == id then (r.1, u) else r)) id = some u := by
  induction s with
  | nil => simp at h
  | cons r rest ih =>
    by_cases hr : r.1 = id
    · rw [List.map_cons, if_pos (by simp [hr]), get.eq_2, if_pos (by simp [hr])]
    · rw [List.map_cons, if_neg (by simp [hr]), get.eq_2, if_neg (by simp [hr])]
      have h2 : rest.any (fun r => r.1 == id) = true := by
        simpa [List.any_cons, hr] using h
      exact ih h2

theorem get_upsert_self (s : Store) (id u : Str) : get (upsert s id u) id = some u := by
  unfold upsert
  by_cases ha : s.any (fun r => r.1 == id) = true
  · rw [if_pos ha]
    exact get_map_replace_of_any s id u ha
  · rw [if_neg ha]
    rw [get_append_of_none _ _ _ (get_none_of_any_false s id (Bool.eq_false_iff.mpr ha))]
    rw [get.eq_2, if_pos (by simp)]

theorem get_map_replace_ne (s : Store) (k u id : Str) (h : k ≠ id) :
    get (s.map (fun r => if r.1 == k then (r.1, u) else r)) id = get s id := by
  induction s with
  | nil => rfl
  | cons r rest ih =>
    by_cases hrk : r.1 = k
    · have hrid : ¬ r.1 = id := by rw [hrk]; exact h
      rw [List.map_cons, if_pos (by simp [hrk]), get.eq_2, if_neg (by simp [hrid])]
      rw [get.eq_2, if_neg (by simp [hrid])]
      exact ih
    · rw [List.map_cons, if_neg (by simp [hrk]), get.eq_2]
      by_cases hrid : r.1 = id
      · rw [if_pos (by simp [hrid]), get.eq_2, if_pos (by simp [hrid])]
      · rw [if_neg (by simp [hrid]), get.eq_2, if_neg (by simp [hrid])]
        exact ih

theorem get_upsert_ne (s : Store) (k u id : Str) (h : k ≠ id) :
    get (upsert s k u) id = get s id := by
  unfold upsert
  by_cases ha : s.any (fun r => r.1 == k) = true
  · rw [if_pos ha]
    exact get_map_replace_ne s k u id h
  · rw [if_neg ha]
    cases hv : get s id with
    | none =>
      rw [get_append_of_none _ _ _ hv, get.eq_2, if_neg (by simp [h]), get.eq_1]
    | some v => rw [get_append_of_some _ _ _ _ hv]

theorem keys_map_replace (s : Store) (id u : Str) :
    keys (s.map (fun r => if r.1 == id then (r.1, u) else r)) = keys s := by
  unfold keys
  rw [List.map_map]
  apply List.map_congr_left
  intro r _
  by_cases hr : r.1 = id
  · rw [Function.comp_apply, if_pos (by simp [hr])]
  · rw [Function.comp_apply, if_neg (by simp [hr])]

theorem not_mem_keys_of_any_false (s : Store) (id : Str)
    (h : s.any (fun r => r.1 == id) = false) : id ∉ keys s := by
  intro hm
  obtain ⟨r, hr, hrid⟩ := List.mem_map.mp hm
  have htrue : s.any (fun r => r.1 == id) = true :=
    List.any_eq_true.mpr ⟨r, hr, by simp [hrid]⟩
  rw [h] at htrue
  exact absurd htrue (by simp)

theorem mem_keys_upsert (s : Store) (id u : Str) : id ∈ keys (upsert s id u) := by
  unfold upsert
  by_cases ha : s.any (fun r => r.1 == id) = true
  · rw [if_pos ha, keys_map_replace]
    obtain ⟨r, hr, hrid⟩ := List.any_eq_true.mp ha
    have heq : r.1 = id := by simpa using hrid
    exact heq ▸ List.mem_map_of_mem Prod.fst hr
  · rw [if_neg ha]
    unfold keys
    rw [List.map_append]
    simp

theorem nodup_keys_upsert (s : Store) (id u : Str) (h : (keys s).Nodup) :
    (keys (upsert s id u)).Nodup := by
  unfold upsert
  by_cases ha : s.any (fun r => r.1 == id) = true
  · rw [if_pos ha, keys_map_replace]
    exact h
  · rw [if_neg ha]
    unfold keys
    rw [List.map_append]
    refine List.Nodup.append h (by simp) ?_
    intro x hx hmem
    simp only [List.map_cons, List.map_nil, List.mem_singleton] at hmem
    subst hmem
    exact not_mem_keys_of_any_false s x (Bool.eq_false_iff.mpr ha) hx

theorem recordCount_eq_zero_of_any_false (s : Store) (id : Str)
    (h : s.any (fun r => r.1 == id) = false) : recordCount s id = 0 := by
  unfold recordCount
  rw [List.countP_eq_zero]
  exact List.any_eq_false.mp h

theorem recordCount_eq_one_of_any (s : Store) (id : Str)
    (ha : s.any (fun r => r.1 == id) = true) (h : (keys s).Nodup) :
    recordCount s id = 1 := by
  induction s with
  | nil => simp at ha
  | cons r rest ih =>
    have hpair := List.nodup_cons.mp (show (r.1 :: keys rest).Nodup by simpa [keys] using h)
    by_cases hr : r.1 = id
    · have hnot : id ∉ keys rest := hr ▸ hpair.1
      have h0 : recordCount rest id = 0 := by
        unfold recordCount
        rw [List.countP_eq_zero]
        intro r2 hr2 hr2id
        exact hnot (List.mem_map.mpr ⟨r2, hr2, by simpa using hr2id⟩)
      unfold recordCount at h0 ⊢
      rw [List.countP_cons, h0, if_pos (by simp [hr])]
    · unfold recordCount
      rw [List.countP_cons, if_neg (by simp [hr]), Nat.add_zero]
      have ha2 : rest.any (fun r => r.1 == id) = true := by
        simpa [List.any_cons, hr] using ha
      exact ih ha2 hpair.2

theorem recordCount_map_replace (s : Store) (id u : Str) :
    recordCount (s.map (fun r => if r.1 == id then (r.1, u) else r)) id =
      recordCount s id := by
  unfold recordCount
  rw [List.countP_map]
  apply List.countP_congr
  intro r _
  by_cases hr : r.1 = id
  · rw [Function.comp_apply, if_pos (by simp [hr])]
  · rw [Function.comp_apply, if_neg (by simp [hr])]

theorem recordCount_upsert (s : Store) (id u : Str) (h : (keys s).Nodup) :
    recordCount (upsert s id u) id = 1 := by
  unfold upsert
  by_cases ha : s.any (fun r => r.1 == id) = true
  · rw [if_pos ha, recordCount_map_replace]
    exact recordCount_eq_one_of_any s id ha h
  · rw [if_neg ha]
    unfold recordCount
    rw [List.countP_append]
    have h0 := recordCount_eq_zero_of_any_false s id (Bool.eq_false_iff.mpr ha)
    unfold recordCount at h0
    rw [h0, List.countP_cons]
    simp

theorem splitChar_ne_nil (sep : Char) (s : Str) : splitChar sep s ≠ [] := by
  induction s with
  | nil => simp [splitChar]
  | cons c rest ih =>
    unfold splitChar
    by_cases hc : c = sep
    · rw [if_pos (by simp [hc])]
      simp
    · rw [if_neg (by simp [hc])]
      cases h : splitChar sep rest with
      | nil => simp
      | cons a as => simp

theorem resolveScan_eq_takeWhile (s : Str) :
    resolveScan s = s.takeWhile (fun c => !(c == '-')) := by
  unfold resolveScan
  induction s with
  | nil => rfl
  | cons c rest ih =>
    unfold splitChar
    by_cases hc : c = '-'
    · rw [if_pos (by simp [hc]), List.takeWhile_cons, if_neg (by simp [hc])]
      rfl
    · rw [if_neg (by simp [hc]), List.takeWhile_cons, if_pos (by simp [hc])]
      cases h : splitChar '-' rest with
      | nil => exact absurd h (splitChar_ne_nil _ _)
      | cons a as =>
        rw [h] at ih
        simpa using ih

theorem takeWhile_append_sep (l rest : Str) (h : ('-' : Char) ∉ l) :
    (l ++ '-' :: rest).takeWhile (fun c => !(c == '-')) = l := by
  induction l with
  | nil => rw [List.nil_append, List.takeWhile_cons, if_neg (by simp)]
  | cons c l2 ih =>
    have hc : c ≠ '-' := fun hh => h (hh ▸ List.mem_cons_self _ _)
    rw [List.cons_append, List.takeWhile_cons, if_pos (by simp [hc])]
    rw [ih (fun hm => h (List.mem_cons_of_mem _ hm))]

theorem resolveScan_of_no_sep (orderId tl : Str) (h : ('-' : Char) ∉ orderId) :
    resolveScan (orderId ++ str "-" ++ tl) = orderId := by
  have harr : orderId ++ str "-" ++ tl = orderId ++ '-' :: tl := by
    simp [str]
  rw [harr, resolveScan_eq_takeWhile, takeWhile_append_sep _ _ h]

theorem no_sep_in_resolveScan (s : Str) : ('-' : Char) ∉ resolveScan s := by
  rw [resolveScan_eq_takeWhile]
  intro hm
  have := List.mem_takeWhile_imp hm
  simp at this

/-- C1: for non-empty `orderId` and non-empty urls, a second `upsert` for the
same id leaves exactly one row for that id and `get` returns the second url;
and in general `upsert` followed by `get` on the same id returns the written
url. -/
theorem upsert_is_idempotent_replace (s : Store) (id u1 u2 : Str)
    (hid : id ≠ []) (hu1 : u1 ≠ []) (hu2 : u2 ≠ []) (hnd : (keys s).Nodup) :
    recordCount (upsert (upsert s id u1) id u2) id = 1 ∧
    get (upsert (upsert s id u1) id u2) id = some u2 ∧
    ∀ s2 id2 u, get (upsert s2 id2 u) id2 = some u :=
  ⟨recordCount_upsert _ _ _ (nodup_keys_upsert _ _ _ hnd),
   get_upsert_self _ _ _,
   fun s2 id2 u => get_upsert_self s2 id2 u⟩

/-- Witness for C1 at a concrete store and id. -/
theorem upsert_is_idempotent_replace_witness :
    recordCount (upsert (upsert [] (str "a") (str "u1")) (str "a") (str "u2")) (str "a") = 1 ∧
    get (upsert (upsert [] (str "a") (str "u1")) (str "a") (str "u2")) (str "a") =
      some (str "u2") :=
  ⟨(upsert_is_idempotent_replace [] (str "a") (str "u1") (str "u2")
      (by decide) (by decide) (by decide) (by simp [keys])).1,
   (upsert_is_idempotent_replace [] (str "a") (str "u1") (str "u2")
      (by decide) (by decide) (by decide) (by simp [keys])).2.1⟩

/-- C7: `get` on an id never written by any upsert in the history answers the
absent sentinel — surfaced as 404 by the handler — and is not an error; no
failure arises from absence. -/
theorem get_never_upserted (ops : List (Str × Str)) (id : Str)
    (h : ∀ op ∈ ops, op.1 ≠ id) :
    getOrderHandler (runUpserts ops) id = GetResp.notFound ∧
    get (runUpserts ops) id = none := by
  have key : ∀ (ops2 : List (Str × Str)) (s : Store),
      (∀ op ∈ ops2, op.1 ≠ id) → get s id = none →
      get (ops2.foldl (fun s op => upsert s op.1 op.2) s) id = none := by
    intro ops2
    induction ops2 with
    | nil =>
      intro s _ hs
      simpa using hs
    | cons op rest ih =>
      intro s hall hs
      rw [List.foldl_cons]
      refine ih _ (fun o ho => hall o (List.mem_cons_of_mem _ ho)) ?_
      rw [get_upsert_ne _ _ _ _ (hall op (List.mem_cons_self _ _))]
      exact hs
  have hnone : get (runUpserts ops) id = none := key ops [] h rfl
  constructor
  · unfold getOrderHandler
    rw [hnone]
  · exact hnone

/-- Witness for C7 with a one-write history that never touches the id. -/
theorem get_never_upserted_witness :
    getOrderHandler (runUpserts [(str "a", str "v")]) (str "b") = GetResp.notFound ∧
    get (runUpserts [(str "a", str "v")]) (str "b") = none :=
  get_never_upserted [(str "a", str "v")] (str "b") (by decide)

/-- C8: the enrichment map produces exactly one output pair per input id, the
stored url when a row exists and the empty string when none does; it is a
total function — no per-item failure and no not-found error is possible. -/
theorem listEnriched_total (s : Store) (ids : List Str) :
    (listEnriched s ids).length = ids.length ∧
    listEnriched s ids = ids.map (fun id => (id, (get s id).getD [])) := by
  constructor
  · unfold listEnriched
    rw [List.length_map]
  · unfold listEnriched
    apply List.map_congr_left
    intro id _
    cases hg : get s id with
    | none => simp
    | some u =>
      by_cases hu : u = []
      · subst hu
        simp
      · simp [hu]

/-- C9 counterexample: with an empty `orderId` and a non-empty `videoUrl` the
handler does not answer 400 — it succeeds and writes a row under the empty
key, so "fails whenever either argument is empty" is false as stated. -/
theorem saveVideo_empty_orderId_writes :
    saveVideoHandler [] [] (str "u") = (SaveResp.success, [([], str "u")]) := by decide

/-- C9 amended: the handler validates only `videoUrl`: an empty `videoUrl`
yields 400 with no write; any non-empty `videoUrl` upserts, with no check on
`orderId` (an empty path parameter is precluded by routing, not here). -/
theorem saveVideo_validation (s : Store) (orderId videoUrl : Str) :
    (videoUrl = [] → saveVideoHandler s orderId videoUrl = (SaveResp.badRequest, s)) ∧
    (videoUrl ≠ [] →
      saveVideoHandler s orderId videoUrl = (SaveResp.success, upsert s orderId videoUrl)) := by
  constructor
  · intro h
    subst h
    rfl
  · intro h
    unfold saveVideoHandler
    rw [if_neg (by simp [h])]

/-- Witness for C9 amended. -/
theorem saveVideo_validation_witness :
    saveVideoHandler [] (str "1") (str "u") =
      (SaveResp.success, upsert [] (str "1") (str "u")) :=
  (saveVideo_validation [] (str "1") (str "u")).2 (by decide)

/-- C10: a stored id that itself contains `-` can never be resolved by the
scan endpoint: the lookup key extracted from `{id}-{tag}` is never the full
id, so a store holding only that id answers 404 even though `get` on the
full id succeeds. -/
theorem dashed_id_unreachable (host id tag u : Str) (h : ('-' : Char) ∈ id) :
    resolveScan (id ++ str "-" ++ tag) ≠ id ∧
    qrRedirectHandler host [(id, u)] (id ++ str "-" ++ tag) = QrResp.notFound ∧
    get [(id, u)] id = some u := by
  have hne : resolveScan (id ++ str "-" ++ tag) ≠ id := by
    intro he
    exact no_sep_in_resolveScan (id ++ str "-" ++ tag) (by rw [he]; exact h)
  refine ⟨hne, ?_, ?_⟩
  · unfold qrRedirectHandler
    have hg : get [(id, u)] (resolveScan (id ++ str "-" ++ tag)) = none := by
      rw [get.eq_2, if_neg ?_, get.eq_1]
      rw [beq_iff_eq]
      exact fun hh => hne hh.symm
    rw [hg]
  · rw [get.eq_2, if_pos (by simp)]

theorem classifyVideo_eq (t : ℚ) :
    classifyVideo t =
      if t < 50 then str "small.mp4"
      else if t < 200 then str "medium.mp4"
      else str "large.mp4" := rfl

theorem parseFloat_7500 : parseFloat (str "75.00") = some 75 := by
  have h : parseFloatParts (str "75.00") = some (false, str "75", str "00") := by decide
  have hr : ratOfParts (false, str "75", str "00") = 75 := by
    unfold ratOfParts
    have h75 : digitsVal (str "75") = 75 := by decide
    have h0 : digitsVal (str "00") = 0 := by decide
    have hlen : (str "00").length = 2 := by decide
    simp only [h75, h0, hlen]
    norm_num
  unfold parseFloat
  rw [h, Option.map_some', hr]

/-- C2: the tier classifier assigns the small asset exactly below 50, the
medium asset exactly on [50, 200), and the large asset exactly from 200 on;
the four boundary samples land as the spec states. -/
theorem classifyVideo_spec :
    (∀ t : ℚ,
      (classifyVideo t = str "small.mp4" ↔ t < 50) ∧
      (classifyVideo t = str "medium.mp4" ↔ 50 ≤ t ∧ t < 200) ∧
      (classifyVideo t = str "large.mp4" ↔ 200 ≤ t)) ∧
    classifyVideo (49.99 : ℚ) = str "small.mp4" ∧
    classifyVideo 50 = str "medium.mp4" ∧
    classifyVideo (199.99 : ℚ) = str "medium.mp4" ∧
    classifyVideo 200 = str "large.mp4" := by
  refine ⟨?_, ?_, ?_, ?_, ?_⟩
  · intro t
    rw [classifyVideo_eq]
    by_cases h1 : t < 50
    · rw [if_pos h1]
      refine ⟨⟨fun _ => h1, fun _ => rfl⟩, ⟨?_, ?_⟩, ⟨?_, ?_⟩⟩
      · intro heq
        exact absurd heq (by decide)
      · rintro ⟨h50, -⟩
        exact absurd h1 (not_lt.mpr h50)
      · intro heq
        exact absurd heq (by decide)
      · intro h200
        exact absurd h1 (not_lt.mpr (by linarith))
    · rw [if_neg h1]
      by_cases h2 : t < 200
      · rw [if_pos h2]
        refine ⟨⟨?_, ?_⟩, ⟨fun _ => ⟨le_of_not_lt h1, h2⟩, fun _ => rfl⟩, ⟨?_, ?_⟩⟩
        · intro heq
          exact absurd heq (by decide)
        · intro hl
          exact absurd hl h1
        · intro heq
          exact absurd heq (by decide)
        · intro h200
          exact absurd h2 (not_lt.mpr h200)
      · rw [if_neg h2]
        refine ⟨⟨?_, ?_⟩, ⟨?_, ?_⟩, ⟨fun _ => le_of_not_lt h2, fun _ => rfl⟩⟩
        · intro heq
          exact absurd heq (by decide)
        · intro hl
          exact absurd h2 (not_not_intro (by linarith))
        · intro heq
          exact absurd heq (by decide)
        · rintro ⟨-, hm⟩
          exact absurd hm h2
  · rw [classifyVideo_eq]
    norm_num
  · rw [classifyVideo_eq]
    norm_num
  · rw [classifyVideo_eq]
    norm_num
  · rw [classifyVideo_eq]
    norm_num

/-- C3 (code bug): a `total_price` that does not parse as a number is not
rejected by the webhook — `parseFloat` yields NaN, both guards compare false,
and the order is stored with the large-tier asset instead of failing with a
validation error as the spec mandates. -/
theorem webhook_unparsable_price_not_rejected :
    parseFloat (str "not-a-number") = none ∧
    tierFile (parseFloat (str "not-a-number")) = str "large.mp4" ∧
    (webhookOrdersCreate (str "https://cdn.example/videos") (str "H") [] (str "900")
        none (str "not-a-number")).1 =
      [(str "900", str "https://cdn.example/videos/large.mp4")] := by decide

/-- C6 counterexample: a record stored under the id `1-2` is not returned by
the scan endpoint — the claim's universally quantified redirect fails for ids
containing `-`: the response is 404, not a 302 redirect. -/
theorem qrRedirect_dashed_id_counterexample :
    get [(str "1-2", str "u")] (str "1-2") = some (str "u") ∧
    qrRedirectHandler (str "H") [(str "1-2", str "u")] (str "1-2" ++ str "-" ++ str "x") =
      QrResp.notFound := by decide

/-- C6 amended: for every orderId containing no `-`, a GET of
`/qr/{orderId}-{tag}` redirects 302 to the player page with the stored url
percent-encoded when a record exists, and answers 404 when none does; the
spec's end-to-end webhook instance stores the medium asset and redirects to
the expected encoded target. -/
theorem qrRedirect_spec (host : Str) (s : Store) (orderId tag : Str)
    (h : ('-' : Char) ∉ orderId) :
    (∀ u, get s orderId = some u →
      qrRedirectHandler host s (orderId ++ str "-" ++ tag) =
        QrResp.redirect (host ++ str "/video-player.html?video=" ++ encodeURIComponent u)) ∧
    (get s orderId = none →
      qrRedirectHandler host s (orderId ++ str "-" ++ tag) = QrResp.notFound) ∧
    (webhookOrdersCreate (str "https://cdn.example/videos") host [] (str "900")
        (some (str "5551234567")) (str "75.00")).1 =
      [(str "900", str "https://cdn.example/videos/medium.mp4")] ∧
    qrRedirectHandler host [(str "900", str "https://cdn.example/videos/medium.mp4")]
        (str "900-5551234567") =
      QrResp.redirect (host ++ str "/video-player.html?video=" ++
        str "https%3A%2F%2Fcdn.example%2Fvideos%2Fmedium.mp4") := by
  refine ⟨?_, ?_, ?_, ?_⟩
  · intro u hu
    unfold qrRedirectHandler
    rw [resolveScan_of_no_sep _ _ h, hu]
  · intro hu
    unfold qrRedirectHandler
    rw [resolveScan_of_no_sep _ _ h, hu]
  · have ht : tierFile (parseFloat (str "75.00")) = str "medium.mp4" := by
      rw [parseFloat_7500]
      unfold tierFile
      norm_num
    show upsert [] (str "900")
        (str "https://cdn.example/videos" ++ str "/" ++ tierFile (parseFloat (str "75.00"))) = _
    rw [ht]
    decide
  · have hres : resolveScan (str "900-5551234567") = str "900" := by decide
    have hget : get [(str "900", str "https://cdn.example/videos/medium.mp4")] (str "900") =
        some (str "https://cdn.example/videos/medium.mp4") := by decide
    have henc : encodeURIComponent (str "https://cdn.example/videos/medium.mp4") =
        str "https%3A%2F%2Fcdn.example%2Fvideos%2Fmedium.mp4" := by decide
    unfold qrRedirectHandler
    rw [hres, hget]
    show QrResp.redirect (host ++ str "/video-player.html?video=" ++
      encodeURIComponent (str "https://cdn.example/videos/medium.mp4")) = _
    rw [henc]

/-- Witness for C6 amended at a concrete store and id free of `-`. -/
theorem qrRedirect_spec_witness :
    qrRedirectHandler (str "H") [(str "900", str "v")] (str "900" ++ str "-" ++ str "x") =
      QrResp.redirect (str "H" ++ str "/video-player.html?video=" ++
        encodeURIComponent (str "v")) :=
  (qrRedirect_spec (str "H") [(str "900", str "v")] (str "900") (str "x") (by decide)).1
    (str "v") (by decide)

/-- C4 counterexample: a phone that keeps only five digits after stripping
produces the tag suffix `12345`, not the sentinel `unknown` — "fewer than ten
digits → unknown" is false as stated. -/
theorem phoneTag_short_not_unknown :
    phoneTag (some (str "12345")) = str "12345" ∧
    phoneTag (some (str "12345")) ≠ str "unknown" := by decide

/-- C4 amended: the suffix is the last ten digits of the stripped phone (all
of them when fewer than ten remain), and the sentinel `unknown` is used
exactly when no digit remains (including an absent phone); the scan link is
the concatenation `host ++ "/qr/" ++ orderId ++ "-" ++ suffix`. -/
theorem buildScanLink_spec (host orderId : Str) (phone : Option Str) :
    buildScanLink host orderId phone =
      host ++ str "/qr/" ++ orderId ++ str "-" ++ phoneTag phone ∧
    (stripNonDigits (phone.getD []) = [] → phoneTag phone = str "unknown") ∧
    (stripNonDigits (phone.getD []) ≠ [] →
      phoneTag phone = sliceLast 10 (stripNonDigits (phone.getD [])) ∧
      phoneTag phone ≠ str "unknown") := by
  refine ⟨rfl, ?_, ?_⟩
  · intro h
    unfold phoneTag
    rw [h]
    rfl
  · intro h
    have hlen : 0 < (stripNonDigits (phone.getD [])).length := List.length_pos.mpr h
    have hslen : 0 < (sliceLast 10 (stripNonDigits (phone.getD []))).length := by
      unfold sliceLast
      rw [List.length_drop]
      omega
    have hsne : sliceLast 10 (stripNonDigits (phone.getD [])) ≠ [] :=
      List.length_pos.mp hslen
    have htag : phoneTag phone = sliceLast 10 (stripNonDigits (phone.getD [])) := by
      unfold phoneTag
      rw [if_neg (by simp [hsne])]
    refine ⟨htag, ?_⟩
    intro habs
    rw [htag] at habs
    have hu : ('u' : Char) ∈ sliceLast 10 (stripNonDigits (phone.getD [])) := by
      rw [habs]
      decide
    have hu2 : ('u' : Char) ∈ stripNonDigits (phone.getD []) := by
      unfold sliceLast at hu
      exact List.drop_subset _ _ hu
    have hdig : ('u' : Char).isDigit = true := by
      unfold stripNonDigits at hu2
      exact (List.mem_filter.mp hu2).2
    exact absurd hdig (by decide)

/-- Witness for C4 amended: a two-digit phone keeps its digits as suffix. -/
theorem buildScanLink_spec_witness :
    phoneTag (some (str "12")) = sliceLast 10 (stripNonDigits ((some (str "12")).getD [])) ∧
    phoneTag (some (str "12")) ≠ str "unknown" :=
  (buildScanLink_spec (str "H") (str "1") (some (str "12"))).2.2 (by decide)

/-- C5: resolving the scan segment returns the text before the first `-`, so
for any orderId free of `-` the built tag round-trips to the orderId; at the
spec's concrete instance the tag is `123-5551234567` and resolves to `123`. -/
theorem scan_roundtrip (orderId : Str) (phone : Option Str)
    (h : ('-' : Char) ∉ orderId) :
    resolveScan (orderId ++ str "-" ++ phoneTag phone) = orderId ∧
    phoneTag (some (str "+1 (555) 123-4567")) = str "5551234567" ∧
    buildScanLink (str "H") (str "123") (some (str "+1 (555) 123-4567")) =
      str "H/qr/123-5551234567" ∧
    resolveScan (str "123-5551234567") = str "123" :=
  ⟨resolveScan_of_no_sep _ _ h, by decide, by decide, by decide⟩

/-- Witness for C5 at the orderId `123`. -/
theorem scan_roundtrip_witness :
    resolveScan (str "123" ++ str "-" ++ phoneTag (some (str "+1 (555) 123-4567"))) =
      str "123" :=
  (scan_roundtrip (str "123") (some (str "+1 (555) 123-4567")) (by decide)).1

/-- Witness for C10 at the id `1-2`. -/
theorem dashed_id_unreachable_witness :
    resolveScan (str "1-2" ++ str "-" ++ str "x") ≠ str "1-2" ∧
    qrRedirectHandler (str "H") [(str "1-2", str "v")] (str "1-2" ++ str "-" ++ str "x") =
      QrResp.notFound ∧
    get [(str "1-2", str "v")] (str "1-2") = some (str "v") :=
  dashed_id_unreachable (str "H") (str "1-2") (str "x") (str "v") (by decide)

end QrApp
